import Mathlib

/-!
Shallow embedding of the supply-chain contract analysis core (src/app.py).

Real-valued quantities are modelled as rationals (ℚ); the floating-point
arithmetic of the source is idealised as exact arithmetic.  The pieces of the
source that call into scipy (the standard-normal CDF `norm.cdf`, the quantile
`norm.ppf`, and the adaptive quadrature `quad`) are abstracted into an
`Oracle` record; theorems that depend on mathematical facts about those
routines (linearity of integration, exactness on constants, monotonicity and
limits of the normal CDF) take those facts as explicit hypotheses, stated in
the predicates `OracleLinear`, `ConstExact` and `NormalCdfSpec`.
-/

namespace App

/-- `EPS = 1e-9`, the numeric tolerance constant of the source. -/
def EPS : ℚ := 1 / 1000000000

/-- `clamp(value, low, high) = max(low, min(value, high))` from the source. -/
def clamp (value low high : ℚ) : ℚ := max low (min value high)

/-- `np.clip(x, 0.0, 1.0)` as used throughout the source. -/
def clip01 (x : ℚ) : ℚ := max 0 (min x 1)

/-- Result record of `inventory_stats`. -/
structure InventoryStats where
  sales : ℚ
  leftover : ℚ
  unmet : ℚ
  service_level : ℚ
  deriving Repr, DecidableEq

/-- `inventory_stats(order_qty, demand)` from the source. -/
def inventory_stats (order_qty demand : ℚ) : InventoryStats :=
  { sales := min order_qty demand
    leftover := max (order_qty - demand) 0
    unmet := max (demand - order_qty) 0
    service_level :=
      if demand ≤ EPS then 1 else clip01 (min order_qty demand / demand) }

/-- The cost mapping: recognized keys `{salvage, holding, shortage, penalty}`,
absent keys defaulting to 0 (`costs.get(key, 0.0)` in the source). -/
structure Costs where
  salvage : ℚ
  holding : ℚ
  shortage : ℚ
  penalty : ℚ
  deriving Repr, DecidableEq

/-- Result record of `inventory_adjustment`. -/
structure Adjustment where
  salvage : ℚ
  holding : ℚ
  shortage : ℚ
  penalty : ℚ
  net : ℚ
  deriving Repr, DecidableEq

/-- `inventory_adjustment(leftover, unmet, costs)` from the source. -/
def inventory_adjustment (leftover unmet : ℚ) (costs : Costs) : Adjustment :=
  { salvage := costs.salvage * leftover
    holding := costs.holding * leftover
    shortage := costs.shortage * unmet
    penalty := costs.penalty * unmet
    net := costs.salvage * leftover - costs.holding * leftover
      - costs.shortage * unmet - costs.penalty * unmet }

/-- The variant-specific parameter dictionary of a `DemandModel`.  The source
keeps a Python dict; here all possible keys are fields, with only the keys of
the active distribution ever read. -/
structure Params where
  demand : ℚ
  mean : ℚ
  std : ℚ
  low : ℚ
  high : ℚ
  demands : List ℚ
  probabilities : List ℚ
  deriving Repr, DecidableEq

/-- Empty parameter record, used as the base for concrete models. -/
def Params.base : Params :=
  { demand := 0, mean := 0, std := 0, low := 0, high := 0
    demands := [], probabilities := [] }

/-- The `DemandModel` dataclass: `mode`, `distribution` tag and parameters. -/
structure DemandModel where
  mode : String
  distribution : String
  params : Params
  deriving Repr, DecidableEq

/-- `DemandModel.is_random` from the source. -/
@[reducible]
def DemandModel.is_random (m : DemandModel) : Prop := m.mode = "Random"

/-- Abstraction of the scipy routines the source calls:
`normalCdf x mean std` stands for `norm(loc=mean, scale=std).cdf(x)`;
`normalPpf p mean std` for `norm.ppf(p, loc=mean, scale=std)`;
`normalInt fn mean std` for `quad(lambda d: fn(d) * pdf(d), 0, inf)`, the
integral of `fn` against the normal density over `[0, ∞)`; and
`quad g a b` for the finite-interval quadrature `quad(g, a, b)`. -/
structure Oracle where
  normalCdf : ℚ → ℚ → ℚ → ℚ
  normalPpf : ℚ → ℚ → ℚ → ℚ
  normalInt : (ℚ → ℚ) → ℚ → ℚ → ℚ
  quad : (ℚ → ℚ) → ℚ → ℚ → ℚ

/-- The exact weighted sum `np.dot([fn(d) for d in demands], probabilities)`
of the discrete branch. -/
def discreteSum (fn : ℚ → ℚ) (demands probabilities : List ℚ) : ℚ :=
  (List.zipWith (fun d p => fn d * p) demands probabilities).sum

/-- `DemandModel.expected_of` from the source.  The trailing
`raise ValueError("Unsupported demand distribution.")` is modelled as
`Except.error`. -/
def expected_of (O : Oracle) (m : DemandModel) (fn : ℚ → ℚ) : Except String ℚ :=
  if m.distribution = "deterministic" then .ok (fn m.params.demand)
  else if m.distribution = "normal" then
    if m.params.std ≤ EPS then .ok (fn (max m.params.mean 0))
    else
      .ok (O.normalInt fn m.params.mean m.params.std
        + fn 0 * O.normalCdf 0 m.params.mean m.params.std)
  else if m.distribution = "uniform" then
    if |m.params.high - m.params.low| ≤ EPS then .ok (fn m.params.low)
    else
      .ok (O.quad (fun d => fn d * (1 / (m.params.high - m.params.low)))
        m.params.low m.params.high)
  else if m.distribution = "discrete" then
    .ok (discreteSum fn m.params.demands m.params.probabilities)
  else .error "Unsupported demand distribution."

/-- `DemandModel.cdf` from the source.  Every branch returns a plain number;
the fall-through for an unrecognized tag returns `0.0`. -/
def cdf (O : Oracle) (m : DemandModel) (x : ℚ) : ℚ :=
  if m.distribution = "deterministic" then
    if x ≥ m.params.demand then 1 else 0
  else if m.distribution = "normal" then
    if m.params.std ≤ EPS then (if x ≥ max m.params.mean 0 then 1 else 0)
    else if x ≤ 0 then O.normalCdf 0 m.params.mean m.params.std
    else O.normalCdf x m.params.mean m.params.std
  else if m.distribution = "uniform" then
    if x ≤ m.params.low then 0
    else if x ≥ m.params.high then 1
    else (x - m.params.low) / max (m.params.high - m.params.low) EPS
  else if m.distribution = "discrete" then
    (List.zipWith (fun d p => if d ≤ x then p else 0)
      m.params.demands m.params.probabilities).sum
  else 0

/-- `np.cumsum` on a list. -/
def cumsum (l : List ℚ) : List ℚ := (l.scanl (fun a b => a + b) 0).tail

/-- `DemandModel.ppf` from the source.  The probability is first clamped to
`[0, 1]`; the discrete branch searches the cumulative sums
(`np.searchsorted(..., side="left")`), caps the index at the last entry and
indexes the support; the fall-through for an unrecognized tag returns `0.0`. -/
def ppf (O : Oracle) (m : DemandModel) (probability : ℚ) : ℚ :=
  let probability := clip01 probability
  if m.distribution = "deterministic" then m.params.demand
  else if m.distribution = "normal" then
    if m.params.std ≤ EPS then max m.params.mean 0
    else max (O.normalPpf probability m.params.mean m.params.std) 0
  else if m.distribution = "uniform" then
    m.params.low + probability * (m.params.high - m.params.low)
  else if m.distribution = "discrete" then
    let cumulative := cumsum m.params.probabilities
    let idx := cumulative.findIdx (fun c => decide (probability ≤ c))
    let idx := min idx (m.params.demands.length - 1)
    m.params.demands.getD idx 0
  else 0

/-- `normal_expected_sales(mean, std, order_qty)` from the source (the cached
normal-branch helper; the cache is a performance detail with no semantic
content and is not modelled). -/
def normal_expected_sales (O : Oracle) (mean std order_qty : ℚ) : ℚ :=
  let order_qty := max order_qty 0
  if std ≤ EPS then min (max mean 0) order_qty
  else O.normalInt (fun d => min order_qty d) mean std

/-- `normal_expected_demand(mean, std)` from the source. -/
def normal_expected_demand (O : Oracle) (mean std : ℚ) : ℚ :=
  if std ≤ EPS then max mean 0
  else O.normalInt (fun d => d) mean std

/-- Result record of `DemandModel.metrics`. -/
structure Metrics where
  expected_sales : ℚ
  expected_demand : ℚ
  expected_leftover : ℚ
  expected_unmet : ℚ
  service_level : ℚ
  stockout_probability : ℚ
  deriving Repr, DecidableEq

/-- The shared tail of `DemandModel.metrics`: the derived fields computed from
the expected sales and expected demand. -/
def metricsFrom (O : Oracle) (m : DemandModel) (q es ed : ℚ) : Metrics :=
  { expected_sales := es
    expected_demand := ed
    expected_leftover := max (q - es) 0
    expected_unmet := max (ed - es) 0
    service_level := if ed ≤ EPS then 1 else clip01 (es / ed)
    stockout_probability := clip01 (1 - cdf O m q) }

/-- `DemandModel.metrics(order_qty)` from the source: the order quantity is
clamped at zero, the normal branch uses the dedicated helpers, every other
branch goes through `expected_of` (whose unsupported-tag error propagates). -/
def metrics (O : Oracle) (m : DemandModel) (order_qty : ℚ) :
    Except String Metrics :=
  let q := max order_qty 0
  if m.distribution = "normal" then
    .ok (metricsFrom O m q
      (normal_expected_sales O m.params.mean m.params.std q)
      (normal_expected_demand O m.params.mean m.params.std))
  else
    (expected_of O m (fun d => min q d)).bind fun es =>
    (expected_of O m (fun d => d)).map fun ed =>
    metricsFrom O m q es ed

/-- `buyback_profit_deterministic` from the source: the
(retailer, manufacturer, total) profit triple. -/
def buyback_profit_deterministic (order_qty demand retail_price wholesale_price
    buyback_price production_cost : ℚ) (costs : Costs) : ℚ × ℚ × ℚ :=
  let s := inventory_stats order_qty demand
  let adjust := inventory_adjustment s.leftover s.unmet costs
  let retailer := retail_price * s.sales + buyback_price * s.leftover
    - wholesale_price * order_qty + adjust.net
  let manufacturer := wholesale_price * order_qty - buyback_price * s.leftover
  let total := retail_price * s.sales - production_cost * order_qty + adjust.net
  (retailer, manufacturer, total)

/-- Result record of `quantity_flex_deterministic`. -/
structure QFResult where
  lower : ℚ
  upper : ℚ
  final_order : ℚ
  unmet : ℚ
  overstock : ℚ
  procurement_cost : ℚ
  total_cost : ℚ
  service_level : ℚ
  deriving Repr, DecidableEq

/-- `quantity_flex_deterministic` from the source. -/
def quantity_flex_deterministic (demand initial_commitment adjustment_pct
    wholesale_price : ℚ) (costs : Costs) : QFResult :=
  let span := adjustment_pct / 100
  let lower := max 0 (initial_commitment * (1 - span))
  let upper := initial_commitment * (1 + span)
  let final_order := clamp demand lower upper
  let unmet := max (demand - final_order) 0
  let overstock := max (final_order - demand) 0
  let procurement := final_order * wholesale_price
  let total_cost := procurement + costs.holding * overstock
    + (costs.shortage + costs.penalty) * unmet - costs.salvage * overstock
  { lower := lower
    upper := upper
    final_order := final_order
    unmet := unmet
    overstock := overstock
    procurement_cost := procurement
    total_cost := total_cost
    service_level :=
      if demand ≤ EPS then 1 else clip01 ((demand - unmet) / demand) }

/-- Result record of `quantity_flex_expected` (one extra field,
`expected_demand`, over the deterministic record). -/
structure QFExpResult where
  lower : ℚ
  upper : ℚ
  final_order : ℚ
  unmet : ℚ
  overstock : ℚ
  procurement_cost : ℚ
  total_cost : ℚ
  service_level : ℚ
  expected_demand : ℚ
  deriving Repr, DecidableEq

/-- `quantity_flex_expected` from the source: `expected_of` is applied to the
clamped final order and to each cost term independently, and the total cost
linear-combines those expectations. -/
def quantity_flex_expected (O : Oracle) (m : DemandModel)
    (initial_commitment adjustment_pct wholesale_price : ℚ) (costs : Costs) :
    Except String QFExpResult :=
  let span := adjustment_pct / 100
  let lower := max 0 (initial_commitment * (1 - span))
  let upper := initial_commitment * (1 + span)
  let final_order_fn := fun demand => clamp demand lower upper
  (expected_of O m final_order_fn).bind fun final_order =>
  (expected_of O m (fun d => max (d - final_order_fn d) 0)).bind fun unmet =>
  (expected_of O m (fun d => max (final_order_fn d - d) 0)).bind fun overstock =>
  (expected_of O m (fun d => d)).map fun expected_demand =>
  let procurement := final_order * wholesale_price
  let total_cost := procurement + costs.holding * overstock
    + (costs.shortage + costs.penalty) * unmet - costs.salvage * overstock
  { lower := lower
    upper := upper
    final_order := final_order
    unmet := unmet
    overstock := overstock
    procurement_cost := procurement
    total_cost := total_cost
    service_level :=
      if expected_demand ≤ EPS then 1
      else clip01 ((expected_demand - unmet) / expected_demand)
    expected_demand := expected_demand }

/-- Result record of the computational core of `contract_wholesale`:
decision, financial and risk fields.  The "N/A" display for the optimal order
quantity and the target fractile is modelled by `Option.none`. -/
structure WholesaleOutcome where
  profit : ℚ
  optimal_q : Option ℚ
  critical_fractile : Option ℚ
  expected_sales : ℚ
  expected_demand : ℚ
  expected_leftover : ℚ
  expected_unmet : ℚ
  service_level : ℚ
  stockout_probability : ℚ
  procurement_cost : ℚ
  deriving Repr, DecidableEq

/-- The computational core of `contract_wholesale` from the source: input
validation (positive retail price, salvage not exceeding retail price), then
metrics, inventory adjustment and profit; for a random demand model the
critical fractile `(p - w)/(p - salvage)` clamped to `[0, 1]` gives the
optimal order quantity via `ppf` when the denominator exceeds `EPS`, and the
optimum is left "N/A" (here `none`) otherwise, while the rest of the result is
still produced. -/
def contract_wholesale (O : Oracle) (m : DemandModel)
    (retail_price wholesale_price order_qty : ℚ) (costs : Costs) :
    Except String WholesaleOutcome :=
  if retail_price ≤ 0 then .error "Retail price must be greater than zero."
  else if costs.salvage > retail_price then
    .error "Salvage value cannot exceed retail price."
  else
    (metrics O m order_qty).map fun mt =>
    let adjust := inventory_adjustment mt.expected_leftover mt.expected_unmet costs
    let profit := retail_price * mt.expected_sales
      - wholesale_price * order_qty + adjust.net
    let optFrac : Option ℚ × Option ℚ :=
      if m.mode = "Random" then
        let denominator := retail_price - costs.salvage
        if denominator > EPS then
          let critical_fractile :=
            clip01 ((retail_price - wholesale_price) / denominator)
          (some (ppf O m critical_fractile), some critical_fractile)
        else (none, none)
      else (none, none)
    { profit := profit
      optimal_q := optFrac.1
      critical_fractile := optFrac.2
      expected_sales := mt.expected_sales
      expected_demand := mt.expected_demand
      expected_leftover := mt.expected_leftover
      expected_unmet := mt.expected_unmet
      service_level := mt.service_level
      stockout_probability := mt.stockout_probability
      procurement_cost := wholesale_price * order_qty }

/-- The four distribution tags the source supports. -/
@[reducible]
def Supported (m : DemandModel) : Prop :=
  m.distribution = "deterministic" ∨ m.distribution = "normal"
    ∨ m.distribution = "uniform" ∨ m.distribution = "discrete"

/-- The construction-time validity invariants enforced by `demand_handler`
(plus the condensation/renormalization post-conditions for `discrete`). -/
@[reducible]
def ValidModel (m : DemandModel) : Prop :=
  (m.distribution = "deterministic" ∧ 0 ≤ m.params.demand)
  ∨ (m.distribution = "normal" ∧ 0 ≤ m.params.mean ∧ 0 ≤ m.params.std)
  ∨ (m.distribution = "uniform" ∧ 0 ≤ m.params.low
      ∧ m.params.low ≤ m.params.high)
  ∨ (m.distribution = "discrete" ∧ m.params.demands ≠ []
      ∧ m.params.demands.length = m.params.probabilities.length
      ∧ List.Chain' (fun a b => a < b) m.params.demands
      ∧ (∀ d ∈ m.params.demands, 0 ≤ d)
      ∧ (∀ p ∈ m.params.probabilities, 0 ≤ p)
      ∧ m.params.probabilities.sum = 1)

/-- Linearity of the quadrature oracle in its integrand: the mathematical
property of the integrals the source's `quad` calls approximate. -/
def OracleLinear (O : Oracle) : Prop :=
  (∀ (a b : ℚ) (f g : ℚ → ℚ) (mean std : ℚ),
    O.normalInt (fun d => a * f d + b * g d) mean std
      = a * O.normalInt f mean std + b * O.normalInt g mean std)
  ∧ (∀ (a b : ℚ) (f g : ℚ → ℚ) (lo hi : ℚ),
    O.quad (fun d => a * f d + b * g d) lo hi
      = a * O.quad f lo hi + b * O.quad g lo hi)

/-- Exactness of the quadrature oracle on constant integrands:
`∫_0^∞ c·pdf = c · (1 - Φ(0))` for the normal density, and
`∫_a^b k = k·(b - a)` for the finite-interval quadrature. -/
def ConstExact (O : Oracle) : Prop :=
  (∀ (c mean std : ℚ),
    O.normalInt (fun _ => c) mean std = c * (1 - O.normalCdf 0 mean std))
  ∧ (∀ (k a b : ℚ), O.quad (fun _ => k) a b = k * (b - a))

/-- The facts about the normal CDF `Φ` that the source's `norm.cdf` satisfies:
monotone in `x`, valued in `[0, 1]`, with limit 1 at `+∞`. -/
def NormalCdfSpec (O : Oracle) : Prop :=
  ∀ mean std : ℚ, EPS < std →
    (Monotone fun x => O.normalCdf x mean std)
    ∧ (∀ x, 0 ≤ O.normalCdf x mean std ∧ O.normalCdf x mean std ≤ 1)
    ∧ Filter.Tendsto (fun x => O.normalCdf x mean std)
        Filter.atTop (nhds 1)

/-- A concrete oracle used to instantiate witnesses: point evaluation for the
integrals (a linear, constant-exact functional) and a step function for the
normal CDF (monotone, `[0,1]`-valued, with limit 1). -/
def pointOracle : Oracle :=
  { normalCdf := fun x _ _ => if x < 0 then 0 else 1
    normalPpf := fun _ _ _ => 0
    normalInt := fun _ _ _ => 0
    quad := fun g a b => g a * (b - a) }

/-- Deterministic demand model as built by `demand_handler`. -/
def mkDeterministic (demand : ℚ) : DemandModel :=
  { mode := "Deterministic", distribution := "deterministic"
    params := { Params.base with demand := demand } }

/-- Normal demand model as built by `demand_handler`. -/
def mkNormal (mean std : ℚ) : DemandModel :=
  { mode := "Random", distribution := "normal"
    params := { Params.base with mean := mean, std := std } }

/-- Uniform demand model as built by `demand_handler`. -/
def mkUniform (low high : ℚ) : DemandModel :=
  { mode := "Random", distribution := "uniform"
    params := { Params.base with low := low, high := high } }

/-- Discrete demand model as built by `demand_handler` (post-condensation). -/
def mkDiscrete (demands probabilities : List ℚ) : DemandModel :=
  { mode := "Random", distribution := "discrete"
    params :=
      { Params.base with demands := demands, probabilities := probabilities } }

/-- A model carrying a distribution tag outside the supported set. -/
def triangularModel : DemandModel :=
  { mode := "Random", distribution := "triangular", params := Params.base }

/-- The example discrete model of the spec: support 60/100/140 with
probabilities 0.2/0.5/0.3. -/
def discModel : DemandModel := mkDiscrete [60, 100, 140] [1/5, 1/2, 3/10]

/-- A degenerate uniform model whose bounds coincide. -/
def degenerateUniform : DemandModel := mkUniform 100 100

lemma expected_of_unsupported (O : Oracle) (m : DemandModel)
    (h : ¬ Supported m) (fn : ℚ → ℚ) :
    expected_of O m fn = .error "Unsupported demand distribution." := by
  unfold Supported at h
  push_neg at h
  obtain ⟨h1, h2, h3, h4⟩ := h
  simp [expected_of, h1, h2, h3, h4]

lemma expected_of_isOk (O : Oracle) (m : DemandModel) (h : Supported m)
    (fn : ℚ → ℚ) : ∃ v, expected_of O m fn = .ok v := by
  unfold expected_of
  rcases h with h | h | h | h <;> simp only [h] <;> norm_num <;> split_ifs <;>
    exact ⟨_, rfl⟩

lemma discreteSum_comb (a b : ℚ) (f g : ℚ → ℚ) (ds ps : List ℚ) :
    discreteSum (fun d => a * f d + b * g d) ds ps
      = a * discreteSum f ds ps + b * discreteSum g ds ps := by
  induction ds generalizing ps with
  | nil => simp [discreteSum]
  | cons d ds ih =>
    cases ps with
    | nil => simp [discreteSum]
    | cons p ps =>
      simp only [discreteSum, List.zipWith_cons_cons, List.sum_cons] at *
      rw [ih]
      ring

lemma discreteSum_const (c : ℚ) (ds ps : List ℚ)
    (h : ds.length = ps.length) :
    discreteSum (fun _ => c) ds ps = c * ps.sum := by
  induction ds generalizing ps with
  | nil =>
    cases ps with
    | nil => simp [discreteSum]
    | cons p ps => simp at h
  | cons d ds ih =>
    cases ps with
    | nil => simp at h
    | cons p ps =>
      simp only [discreteSum, List.zipWith_cons_cons, List.sum_cons,
        List.length_cons, Nat.succ.injEq] at *
      rw [ih ps h]
      ring

lemma expected_of_comb (O : Oracle) (hO : OracleLinear O) (m : DemandModel)
    (a b : ℚ) (f g : ℚ → ℚ) :
    expected_of O m (fun d => a * f d + b * g d)
      = (expected_of O m f).bind fun x =>
        (expected_of O m g).map fun y => a * x + b * y := by
  unfold expected_of
  split_ifs with h1 h2 h3 h4 h5 h6
  · simp [Except.bind, Except.map]
  · simp [Except.bind, Except.map]
  · simp only [Except.bind, Except.map]
    rw [hO.1]
    ring_nf
  · simp [Except.bind, Except.map]
  · simp only [Except.bind, Except.map]
    have hfun : (fun d => (a * f d + b * g d)
        * (1 / (m.params.high - m.params.low)))
        = fun d => a * (f d * (1 / (m.params.high - m.params.low)))
          + b * (g d * (1 / (m.params.high - m.params.low))) := by
      funext d; ring
    rw [hfun, hO.2]
  · simp only [Except.bind, Except.map]
    rw [discreteSum_comb]
  · simp [Except.bind, Except.map]

lemma metrics_isOk (O : Oracle) (m : DemandModel) (h : Supported m) (q : ℚ) :
    ∃ mt, metrics O m q = .ok mt := by
  unfold metrics
  by_cases hn : m.distribution = "normal"
  · simp [hn]
  · simp only [hn, if_false]
    obtain ⟨v1, hv1⟩ := expected_of_isOk O m h (fun d => min (max q 0) d)
    obtain ⟨v2, hv2⟩ := expected_of_isOk O m h (fun d => d)
    rw [hv1, hv2]
    exact ⟨_, rfl⟩

lemma pointOracle_linear : OracleLinear pointOracle := by
  constructor
  · intro a b f g mean std
    simp [pointOracle]
  · intro a b f g lo hi
    simp only [pointOracle]
    ring

lemma pointOracle_constExact : ConstExact pointOracle := by
  constructor
  · intro c mean std
    norm_num [pointOracle]
  · intro k a b
    simp [pointOracle]

lemma pointOracle_cdfSpec : NormalCdfSpec pointOracle := by
  intro mean std _
  refine ⟨?_, ?_, ?_⟩
  · intro x y hxy
    simp only [pointOracle]
    split_ifs with h1 h2 h2 <;> norm_num
    linarith
  · intro x
    simp only [pointOracle]
    split_ifs <;> norm_num
  · have hev : (fun _ : ℚ => (1 : ℚ)) =ᶠ[Filter.atTop]
        fun x => pointOracle.normalCdf x mean std := by
      filter_upwards [Filter.Ici_mem_atTop (0 : ℚ)] with x hx
      simp [pointOracle, not_lt.mpr (Set.mem_Ici.mp hx)]
    exact Filter.Tendsto.congr' hev tendsto_const_nhds

lemma cumsum_length (l : List ℚ) : (cumsum l).length = l.length := by
  simp [cumsum, List.length_tail, List.length_scanl]

/-- C1 (amended): for a demand model whose distribution tag is outside
{deterministic, normal, uniform, discrete}, only `expected_of` signals a
configuration error; `cdf` and `ppf` fall through all branches and silently
return the default value 0. -/
theorem unsupported_tag_ops (O : Oracle) (m : DemandModel) (h : ¬ Supported m)
    (fn : ℚ → ℚ) (x p : ℚ) :
    expected_of O m fn = .error "Unsupported demand distribution."
    ∧ cdf O m x = 0 ∧ ppf O m p = 0 := by
  have h' := h
  unfold Supported at h'
  push_neg at h'
  obtain ⟨h1, h2, h3, h4⟩ := h'
  exact ⟨expected_of_unsupported O m h fn,
    by simp [cdf, h1, h2, h3, h4], by simp [ppf, h1, h2, h3, h4]⟩

/-- C1 counterexample: on the unsupported tag "triangular", `cdf` and `ppf`
return the plain number 0 instead of signalling a configuration error (only
`expected_of` raises). -/
theorem unsupported_tag_counterexample :
    cdf pointOracle triangularModel 50 = 0
    ∧ ppf pointOracle triangularModel (1/2) = 0
    ∧ expected_of pointOracle triangularModel (fun d => d)
        = .error "Unsupported demand distribution." := by
  refine ⟨by decide, by decide, rfl⟩

/-- C1 witness: the amended behaviour at the concrete tag "triangular". -/
theorem unsupported_tag_ops_witness :
    expected_of pointOracle triangularModel (fun d => d)
        = .error "Unsupported demand distribution."
    ∧ cdf pointOracle triangularModel 0 = 0
    ∧ ppf pointOracle triangularModel 0 = 0 :=
  unsupported_tag_ops pointOracle triangularModel (by decide) (fun d => d) 0 0

/-- C8: `buyback_profit_deterministic` returns
retailer = `p·sales + b·leftover - w·Q + net`, manufacturer =
`w·Q - b·leftover`, total = `p·sales - c·Q + net`, with sales/leftover from
`inventory_stats`; the spec's concrete example evaluates to
(3300, 8700, 2500). -/
theorem buyback_deterministic_correct (Q D p w b c : ℚ) (costs : Costs) :
    buyback_profit_deterministic Q D p w b c costs
      = (p * (inventory_stats Q D).sales + b * (inventory_stats Q D).leftover
          - w * Q
          + (inventory_adjustment (inventory_stats Q D).leftover
              (inventory_stats Q D).unmet costs).net,
        w * Q - b * (inventory_stats Q D).leftover,
        p * (inventory_stats Q D).sales - c * Q
          + (inventory_adjustment (inventory_stats Q D).leftover
              (inventory_stats Q D).unmet costs).net)
    ∧ buyback_profit_deterministic 100 80 150 95 40 95 ⟨0, 0, 0, 0⟩
        = (3300, 8700, 2500) := by
  constructor
  · rfl
  · norm_num [buyback_profit_deterministic, inventory_stats,
      inventory_adjustment, Prod.ext_iff]

/-- C9: `metrics` clamps its order-quantity argument at zero, so a negative
order quantity yields exactly the bundle of `metrics 0`. -/
theorem metrics_neg_order_eq_zero (O : Oracle) (m : DemandModel) (q : ℚ)
    (hq : q < 0) : metrics O m q = metrics O m 0 := by
  unfold metrics
  rw [max_eq_right hq.le, max_self]

/-- C9 witness: a concrete negative order quantity on the discrete model. -/
theorem metrics_neg_order_eq_zero_witness :
    metrics pointOracle discModel (-5) = metrics pointOracle discModel 0 :=
  metrics_neg_order_eq_zero pointOracle discModel (-5) (by norm_num)

/-- C10: the discrete `ppf` always returns an element of the support: the
index found over the cumulative probabilities is capped at the last entry, so
even a clamped probability exceeding every accumulated mass yields the
maximum support value. -/
theorem discrete_ppf_in_support (O : Oracle) (m : DemandModel)
    (hd : m.distribution = "discrete") (hne : m.params.demands ≠ []) (p : ℚ) :
    ppf O m p ∈ m.params.demands
    ∧ (m.params.demands.length = m.params.probabilities.length →
        (∀ c ∈ cumsum m.params.probabilities, c < clip01 p) →
        ppf O m p = m.params.demands.getLast hne) := by
  have hpos : 0 < m.params.demands.length := List.length_pos.mpr hne
  have hppf : ppf O m p = m.params.demands.getD
      (min ((cumsum m.params.probabilities).findIdx
          fun c => decide (clip01 p ≤ c))
        (m.params.demands.length - 1)) 0 := by
    simp only [ppf, hd]
    simp
  constructor
  · have hlt : min ((cumsum m.params.probabilities).findIdx
        fun c => decide (clip01 p ≤ c)) (m.params.demands.length - 1)
        < m.params.demands.length :=
      lt_of_le_of_lt (min_le_right _ _) (Nat.sub_lt hpos one_pos)
    rw [hppf, List.getD_eq_getElem _ _ hlt]
    exact List.getElem_mem _
  · intro hlen hall
    have hidx : (cumsum m.params.probabilities).findIdx
        (fun c => decide (clip01 p ≤ c)) = (cumsum m.params.probabilities).length :=
      List.findIdx_eq_length_of_false fun c hc => by
        simpa using not_le.mpr (hall c hc)
    have hmin : min ((cumsum m.params.probabilities).findIdx
        fun c => decide (clip01 p ≤ c)) (m.params.demands.length - 1)
        = m.params.demands.length - 1 := by
      rw [hidx, cumsum_length, ← hlen]
      exact min_eq_right (Nat.sub_le _ _)
    rw [hppf, hmin, List.getD_eq_getElem _ _ (Nat.sub_lt hpos one_pos),
      List.getLast_eq_getElem]

/-- C10 witness: on the concrete discrete model with probability 2 (clamped
to 1, exceeding the first two cumulative masses), `ppf` returns a support
element. -/
theorem discrete_ppf_in_support_witness :
    ppf pointOracle discModel 2 ∈ discModel.params.demands :=
  (discrete_ppf_in_support pointOracle discModel rfl (by decide) 2).1

/-- C4: for every valid demand model of any of the four distributions,
`expected_of` applied to a constant payoff returns exactly that constant,
given that the quadrature is exact on constants (as true integration is). -/
theorem expected_of_const_exact (O : Oracle) (hO : ConstExact O)
    (m : DemandModel) (hm : ValidModel m) (c : ℚ) :
    expected_of O m (fun _ => c) = .ok c := by
  rcases hm with ⟨h, _⟩ | ⟨h, _, _⟩ | ⟨h, _, _⟩ | ⟨h, _, hlen, _, _, _, hsum⟩
  · simp [expected_of, h]
  · simp only [expected_of, h]
    simp only [String.reduceEq, if_false, if_true, reduceIte]
    split_ifs with h1
    · rfl
    · rw [hO.1]
      congr 1
      ring
  · simp only [expected_of, h]
    simp only [String.reduceEq, if_false, if_true, reduceIte]
    split_ifs with h1
    · rfl
    · rw [hO.2]
      have hne : m.params.high - m.params.low ≠ 0 := by
        intro h0
        rw [h0] at h1
        simp [EPS] at h1
      congr 1
      field_simp
  · simp only [expected_of, h]
    simp only [String.reduceEq, if_false, if_true, reduceIte]
    rw [discreteSum_const c _ _ hlen, hsum, mul_one]

lemma discModel_valid : ValidModel discModel := by
  refine Or.inr (Or.inr (Or.inr ⟨rfl, by simp [discModel, mkDiscrete,
    Params.base], rfl, ?_, ?_, ?_, ?_⟩))
  · norm_num [discModel, mkDiscrete, Params.base, List.chain'_cons]
  · norm_num [discModel, mkDiscrete, Params.base]
  · norm_num [discModel, mkDiscrete, Params.base]
  · norm_num [discModel, mkDiscrete, Params.base]

/-- C4 witness: the constant payoff 7 on the concrete discrete model. -/
theorem expected_of_const_exact_witness :
    expected_of pointOracle discModel (fun _ => 7) = .ok 7 :=
  expected_of_const_exact pointOracle pointOracle_constExact discModel
    discModel_valid 7

/-- C5: for a normal demand model with `std > EPS`, `expected_of` computes
the truncated form `∫₀^∞ payoff·pdf + payoff(0)·P(D ≤ 0)` (the oracle field
`normalInt` standing for the quadrature over `[0, ∞)`); consequently, given
that the integral over `[0, ∞)` only depends on the payoff's values at
non-negative demands, the whole expectation does too — all negative-demand
mass acts through the single point `d = 0`. -/
theorem normal_truncated_expectation (O : Oracle) (m : DemandModel)
    (hd : m.distribution = "normal") (hs : EPS < m.params.std)
    (hloc : ∀ f g : ℚ → ℚ, (∀ d, 0 ≤ d → f d = g d) →
      O.normalInt f m.params.mean m.params.std
        = O.normalInt g m.params.mean m.params.std) :
    (∀ fn : ℚ → ℚ, expected_of O m fn
      = .ok (O.normalInt fn m.params.mean m.params.std
          + fn 0 * O.normalCdf 0 m.params.mean m.params.std))
    ∧ ∀ f g : ℚ → ℚ, (∀ d, 0 ≤ d → f d = g d) →
        expected_of O m f = expected_of O m g := by
  have hmain : ∀ fn : ℚ → ℚ, expected_of O m fn
      = .ok (O.normalInt fn m.params.mean m.params.std
          + fn 0 * O.normalCdf 0 m.params.mean m.params.std) := by
    intro fn
    simp [expected_of, hd, not_le.mpr hs]
  refine ⟨hmain, fun f g hfg => ?_⟩
  rw [hmain f, hmain g, hloc f g hfg, hfg 0 le_rfl]

/-- C5 witness: the identity payoff on a normal model with mean 100,
std 20. -/
theorem normal_truncated_expectation_witness :
    expected_of pointOracle (mkNormal 100 20) (fun d => d) = .ok 0 := by
  have h := (normal_truncated_expectation pointOracle (mkNormal 100 20) rfl
    (by norm_num [mkNormal, Params.base, EPS])
    (fun f g _ => rfl)).1 (fun d => d)
  simpa [pointOracle] using h

lemma max_sub_min_right (a b : ℚ) : max (a - min a b) 0 = max (a - b) 0 := by
  rcases le_total a b with h | h
  · simp [min_eq_left h, max_eq_right (sub_nonpos.mpr h)]
  · rw [min_eq_right h]

lemma max_sub_min_left (a b : ℚ) : max (a - min b a) 0 = max (a - b) 0 := by
  rw [min_comm]
  exact max_sub_min_right a b

lemma sub_min_self_left (a b : ℚ) : a - min a b = max (a - b) 0 := by
  rcases le_total a b with h | h
  · simp [min_eq_left h, max_eq_right (sub_nonpos.mpr h)]
  · rw [min_eq_right h, max_eq_left (sub_nonneg.mpr h)]

lemma sub_min_self_right (a b : ℚ) : a - min b a = max (a - b) 0 := by
  rw [min_comm]
  exact sub_min_self_left a b

lemma metrics_normal_branch (O : Oracle) (m : DemandModel)
    (h : m.distribution = "normal") (q : ℚ) :
    metrics O m q = .ok (metricsFrom O m (max q 0)
      (normal_expected_sales O m.params.mean m.params.std (max q 0))
      (normal_expected_demand O m.params.mean m.params.std)) := by
  simp [metrics, h]

lemma metrics_deterministic_branch (O : Oracle) (m : DemandModel)
    (h : m.distribution = "deterministic") (q : ℚ) :
    metrics O m q = .ok (metricsFrom O m (max q 0)
      (min (max q 0) m.params.demand) m.params.demand) := by
  simp [metrics, expected_of, h, Except.bind, Except.map]

/-- C6: a normal demand model with `std ≤ EPS` behaves identically to a
deterministic demand model fixed at the mean, on `expected_of`, `cdf`, `ppf`
and `metrics`; and the deterministic metrics are exactly the
`inventory_stats`-derived values. -/
theorem degenerate_normal_matches_deterministic (O : Oracle) (mean std : ℚ)
    (hm : 0 ≤ mean) (hs : std ≤ EPS) :
    (∀ fn : ℚ → ℚ, expected_of O (mkNormal mean std) fn
        = expected_of O (mkDeterministic mean) fn)
    ∧ (∀ x, cdf O (mkNormal mean std) x = cdf O (mkDeterministic mean) x)
    ∧ (∀ p, ppf O (mkNormal mean std) p = ppf O (mkDeterministic mean) p)
    ∧ (∀ q, metrics O (mkNormal mean std) q
        = metrics O (mkDeterministic mean) q)
    ∧ (∀ q, metrics O (mkDeterministic mean) q
        = .ok { expected_sales := (inventory_stats (max q 0) mean).sales
                expected_demand := mean
                expected_leftover := (inventory_stats (max q 0) mean).leftover
                expected_unmet := (inventory_stats (max q 0) mean).unmet
                service_level := (inventory_stats (max q 0) mean).service_level
                stockout_probability :=
                  clip01 (1 - cdf O (mkDeterministic mean) (max q 0)) }) := by
  have hmax : max mean 0 = mean := max_eq_left hm
  have h2 : ∀ x, cdf O (mkNormal mean std) x = cdf O (mkDeterministic mean) x := by
    intro x
    simp [cdf, mkNormal, mkDeterministic, Params.base, hs, hmax]
  refine ⟨?_, h2, ?_, ?_, ?_⟩
  · intro fn
    simp [expected_of, mkNormal, mkDeterministic, Params.base, hs, hmax]
  · intro p
    simp [ppf, mkNormal, mkDeterministic, Params.base, hs, hmax]
  · intro q
    rw [metrics_normal_branch O (mkNormal mean std) rfl q,
      metrics_deterministic_branch O (mkDeterministic mean) rfl q]
    have hnes : normal_expected_sales O (mkNormal mean std).params.mean
        (mkNormal mean std).params.std (max q 0) = min (max q 0) mean := by
      have hq : max (max q 0) 0 = max q 0 := max_eq_left (le_max_right _ _)
      simp only [mkNormal, normal_expected_sales, Params.base]
      rw [if_pos hs, hq, hmax, min_comm]
    have hned : normal_expected_demand O (mkNormal mean std).params.mean
        (mkNormal mean std).params.std = mean := by
      simp only [mkNormal, normal_expected_demand, Params.base]
      rw [if_pos hs, hmax]
    rw [hnes, hned]
    simp only [metricsFrom]
    rw [h2 (max q 0)]
    rfl
  · intro q
    rw [metrics_deterministic_branch O (mkDeterministic mean) rfl q]
    simp only [mkDeterministic, Params.base]
    congr 1
    simp [metricsFrom, inventory_stats, max_sub_min_right, max_sub_min_left,
      sub_min_self_left, sub_min_self_right, mkDeterministic, Params.base]

/-- C6 witness: mean 100, std 0, order quantity 90. -/
theorem degenerate_normal_matches_deterministic_witness :
    metrics pointOracle (mkNormal 100 0) 90
      = metrics pointOracle (mkDeterministic 100) 90 :=
  (degenerate_normal_matches_deterministic pointOracle 100 0 (by norm_num)
    (by norm_num [EPS])).2.2.2.1 90

/-- The all-zero cost mapping (no optional cost components supplied). -/
def costs0 : Costs := ⟨0, 0, 0, 0⟩

/-- C7: in the wholesale contract with random demand, the reported optimal
order quantity is `ppf` of the critical fractile `(p - w)/(p - salvage)`
clamped to `[0, 1]` whenever the denominator exceeds `EPS`; when the
denominator is at most `EPS` the optimum is reported as `none` ("not
well-defined") rather than failing, and the rest of the evaluation (profit,
metrics) still completes. -/
theorem wholesale_optimal_fractile (O : Oracle) (m : DemandModel)
    (retail wholesale q : ℚ) (costs : Costs)
    (hp : 0 < retail) (hsal : costs.salvage ≤ retail)
    (hsup : Supported m) (hrand : m.mode = "Random") :
    ∃ mt, metrics O m q = .ok mt
      ∧ (contract_wholesale O m retail wholesale q costs).map
          (fun r => r.optimal_q)
        = .ok (if retail - costs.salvage > EPS
            then some (ppf O m
              (clip01 ((retail - wholesale) / (retail - costs.salvage))))
            else none)
      ∧ (contract_wholesale O m retail wholesale q costs).map
          (fun r => r.critical_fractile)
        = .ok (if retail - costs.salvage > EPS
            then some (clip01 ((retail - wholesale) / (retail - costs.salvage)))
            else none)
      ∧ (contract_wholesale O m retail wholesale q costs).map
          (fun r => r.profit)
        = .ok (retail * mt.expected_sales - wholesale * q
            + (inventory_adjustment mt.expected_leftover
                mt.expected_unmet costs).net) := by
  obtain ⟨mt, hmt⟩ := metrics_isOk O m hsup q
  refine ⟨mt, hmt, ?_, ?_, ?_⟩ <;>
    · unfold contract_wholesale
      rw [if_neg (not_le.mpr hp), if_neg (not_lt.mpr hsal), hmt]
      simp only [Except.map, if_pos hrand]
      all_goals split_ifs <;> rfl

/-- C7 witness: uniform demand 60–140, retail 150, wholesale 90, order 100,
no extra costs. -/
theorem wholesale_optimal_fractile_witness :
    ∃ mt, metrics pointOracle (mkUniform 60 140) 100 = .ok mt
      ∧ (contract_wholesale pointOracle (mkUniform 60 140) 150 90 100
          costs0).map (fun r => r.optimal_q)
        = .ok (if (150 : ℚ) - costs0.salvage > EPS
            then some (ppf pointOracle (mkUniform 60 140)
              (clip01 ((150 - 90) / (150 - costs0.salvage))))
            else none)
      ∧ (contract_wholesale pointOracle (mkUniform 60 140) 150 90 100
          costs0).map (fun r => r.critical_fractile)
        = .ok (if (150 : ℚ) - costs0.salvage > EPS
            then some (clip01 ((150 - 90) / (150 - costs0.salvage)))
            else none)
      ∧ (contract_wholesale pointOracle (mkUniform 60 140) 150 90 100
          costs0).map (fun r => r.profit)
        = .ok (150 * mt.expected_sales - 90 * 100
            + (inventory_adjustment mt.expected_leftover
                mt.expected_unmet costs0).net) :=
  wholesale_optimal_fractile pointOracle (mkUniform 60 140) 150 90 100 costs0
    (by norm_num) (by norm_num [costs0]) (Or.inr (Or.inr (Or.inl rfl))) rfl

lemma qf_total_comb (O : Oracle) (hO : OracleLinear O) (m : DemandModel)
    (Q0 adj w : ℚ) (costs : Costs) :
    (quantity_flex_expected O m Q0 adj w costs).map (fun r => r.total_cost)
      = expected_of O m
          (fun d => (quantity_flex_deterministic d Q0 adj w costs).total_cost) := by
  by_cases hsup : Supported m
  · obtain ⟨vF, hF⟩ := expected_of_isOk O m hsup
      (fun d => clamp d (max 0 (Q0 * (1 - adj / 100))) (Q0 * (1 + adj / 100)))
    obtain ⟨vU, hUm⟩ := expected_of_isOk O m hsup
      (fun d => max (d - clamp d (max 0 (Q0 * (1 - adj / 100)))
        (Q0 * (1 + adj / 100))) 0)
    obtain ⟨vO, hOv⟩ := expected_of_isOk O m hsup
      (fun d => max (clamp d (max 0 (Q0 * (1 - adj / 100)))
        (Q0 * (1 + adj / 100)) - d) 0)
    obtain ⟨vE, hE⟩ := expected_of_isOk O m hsup (fun d => d)
    have hLHS : (quantity_flex_expected O m Q0 adj w costs).map
        (fun r => r.total_cost)
        = .ok (vF * w + costs.holding * vO
            + (costs.shortage + costs.penalty) * vU - costs.salvage * vO) := by
      simp only [quantity_flex_expected]
      rw [hF, hUm, hOv, hE]
      simp only [Except.bind, Except.map]
    have hcomp : (fun d =>
        (quantity_flex_deterministic d Q0 adj w costs).total_cost)
        = fun d => w * clamp d (max 0 (Q0 * (1 - adj / 100)))
              (Q0 * (1 + adj / 100))
            + 1 * ((costs.holding - costs.salvage)
                * max (clamp d (max 0 (Q0 * (1 - adj / 100)))
                    (Q0 * (1 + adj / 100)) - d) 0
              + (costs.shortage + costs.penalty)
                * max (d - clamp d (max 0 (Q0 * (1 - adj / 100)))
                    (Q0 * (1 + adj / 100))) 0) := by
      funext d
      simp only [quantity_flex_deterministic]
      ring
    rw [hLHS, hcomp, expected_of_comb O hO m, expected_of_comb O hO m,
      hF, hOv, hUm]
    simp only [Except.bind, Except.map]
    congr 1
    ring
  · simp [quantity_flex_expected, expected_of_unsupported O m hsup,
      Except.bind, Except.map]

/-- C2 (amended): for every demand model and quantity-flexibility
parameters, the total_cost of the expected evaluator — which linear-combines
the separate expectations of the clamped final order, overstock and unmet
terms — EQUALS `expected_of` applied to the single composed
demand→total-cost function of the deterministic evaluator, by linearity of
expectation (exact for the deterministic/discrete branches; for the integral
branches, under linearity of the quadrature, which true integration has).
The claimed inequivalence does not exist in exact arithmetic. -/
theorem quantity_flex_expected_total_is_composed (O : Oracle)
    (hO : OracleLinear O) (m : DemandModel) (Q0 adj w : ℚ) (costs : Costs) :
    (quantity_flex_expected O m Q0 adj w costs).map (fun r => r.total_cost)
      = expected_of O m
          (fun d => (quantity_flex_deterministic d Q0 adj w costs).total_cost) :=
  qf_total_comb O hO m Q0 adj w costs

/-- C2 counterexample to the claim as stated: there is NO demand model and
no quantity-flexibility parameter choice under which the term-wise expected
total cost differs from the expectation of the composed deterministic cost,
for any linear quadrature oracle. -/
theorem quantity_flex_no_divergence :
    ¬ ∃ (O : Oracle) (m : DemandModel) (Q0 adj w : ℚ) (costs : Costs),
      OracleLinear O ∧
      (quantity_flex_expected O m Q0 adj w costs).map (fun r => r.total_cost)
        ≠ expected_of O m
            (fun d => (quantity_flex_deterministic d Q0 adj w costs).total_cost) := by
  rintro ⟨O, m, Q0, adj, w, costs, hO, hne⟩
  exact hne (qf_total_comb O hO m Q0 adj w costs)

/-- C2 witness: the spec's quantity-flexibility example parameters on the
concrete discrete model. -/
theorem quantity_flex_expected_total_is_composed_witness :
    (quantity_flex_expected pointOracle discModel 100 20 92 costs0).map
        (fun r => r.total_cost)
      = expected_of pointOracle discModel
          (fun d => (quantity_flex_deterministic d 100 20 92 costs0).total_cost) :=
  quantity_flex_expected_total_is_composed pointOracle pointOracle_linear
    discModel 100 20 92 costs0

lemma discreteCdf_mono (x y : ℚ) (hxy : x ≤ y) (ds ps : List ℚ)
    (hp : ∀ p ∈ ps, 0 ≤ p) :
    (List.zipWith (fun d p => if d ≤ x then p else 0) ds ps).sum
      ≤ (List.zipWith (fun d p => if d ≤ y then p else 0) ds ps).sum := by
  induction ds generalizing ps with
  | nil => simp
  | cons d ds ih =>
    cases ps with
    | nil => simp
    | cons p ps =>
      simp only [List.zipWith_cons_cons, List.sum_cons]
      have hp0 : 0 ≤ p := hp p (List.mem_cons_self _ _)
      have hps : ∀ r ∈ ps, 0 ≤ r := fun r hr => hp r (List.mem_cons_of_mem _ hr)
      have hterm : (if d ≤ x then p else 0) ≤ if d ≤ y then p else 0 := by
        split_ifs with h1 h2
        · exact le_refl p
        · exact absurd (h1.trans hxy) h2
        · exact hp0
        · exact le_refl 0
      exact add_le_add hterm (ih ps hps)

lemma discreteCdf_nonneg (x : ℚ) (ds ps : List ℚ) (hp : ∀ p ∈ ps, 0 ≤ p) :
    0 ≤ (List.zipWith (fun d p => if d ≤ x then p else 0) ds ps).sum := by
  induction ds generalizing ps with
  | nil => simp
  | cons d ds ih =>
    cases ps with
    | nil => simp
    | cons p ps =>
      simp only [List.zipWith_cons_cons, List.sum_cons]
      have hp0 : 0 ≤ p := hp p (List.mem_cons_self _ _)
      have hps : ∀ r ∈ ps, 0 ≤ r := fun r hr => hp r (List.mem_cons_of_mem _ hr)
      have hterm : (0 : ℚ) ≤ if d ≤ x then p else 0 := by
        split_ifs
        · exact hp0
        · exact le_refl 0
      exact add_nonneg hterm (ih ps hps)

lemma discreteCdf_total (x : ℚ) (ds ps : List ℚ)
    (hlen : ds.length = ps.length) (hall : ∀ d ∈ ds, d ≤ x) :
    (List.zipWith (fun d p => if d ≤ x then p else 0) ds ps).sum = ps.sum := by
  induction ds generalizing ps with
  | nil =>
    cases ps with
    | nil => simp
    | cons p ps => simp at hlen
  | cons d ds ih =>
    cases ps with
    | nil => simp at hlen
    | cons p ps =>
      have h1 : d ≤ x := hall d (List.mem_cons_self _ _)
      have h2 : ∀ e ∈ ds, e ≤ x := fun e he => hall e (List.mem_cons_of_mem _ he)
      simp only [List.zipWith_cons_cons, List.sum_cons, List.length_cons,
        Nat.succ.injEq] at hlen ⊢
      rw [if_pos h1, ih ps hlen h2]

lemma EPS_pos : (0 : ℚ) < EPS := by norm_num [EPS]

/-- C3 (amended): for every valid demand model, `cdf` is non-decreasing and
`cdf 0 ≥ 0`; `cdf` at the maximum support point equals 1 for the
deterministic model, the degenerate normal, the uniform with `low < high`,
and the discrete model, and tends to 1 at `+∞` for the non-degenerate
normal.  (The degenerate uniform with `low = high` is excluded: there the
source returns 0, not 1, at the support point — see the counterexample.) -/
theorem cdf_shape (O : Oracle) (hPhi : NormalCdfSpec O) (m : DemandModel)
    (hm : ValidModel m) :
    (∀ x y, x ≤ y → cdf O m x ≤ cdf O m y)
    ∧ 0 ≤ cdf O m 0
    ∧ (m.distribution = "deterministic" → cdf O m m.params.demand = 1)
    ∧ (m.distribution = "normal" → m.params.std ≤ EPS →
        cdf O m (max m.params.mean 0) = 1)
    ∧ (m.distribution = "normal" → EPS < m.params.std →
        Filter.Tendsto (cdf O m) Filter.atTop (nhds 1))
    ∧ (m.distribution = "uniform" → m.params.low < m.params.high →
        cdf O m m.params.high = 1)
    ∧ (m.distribution = "discrete" →
        ∀ x, (∀ d ∈ m.params.demands, d ≤ x) → cdf O m x = 1) := by
  rcases hm with ⟨h, hd0⟩ | ⟨h, hmean0, hstd0⟩ | ⟨h, h0low, hlh⟩
    | ⟨h, hne, hlen, hchain, hds0, hp0, hsum⟩
  · -- deterministic
    have hc : ∀ x, cdf O m x = if x ≥ m.params.demand then 1 else 0 := by
      intro x
      simp [cdf, h]
    refine ⟨?_, ?_, ?_, ?_, ?_, ?_, ?_⟩
    · intro x y hxy
      rw [hc, hc]
      split_ifs with h1 h2 <;> norm_num
      exact absurd (h1.trans hxy) h2
    · rw [hc]
      split_ifs <;> norm_num
    · intro _
      rw [hc, if_pos (le_refl _)]
    · intro hx
      exact absurd (h.symm.trans hx) (by decide)
    · intro hx
      exact absurd (h.symm.trans hx) (by decide)
    · intro hx
      exact absurd (h.symm.trans hx) (by decide)
    · intro hx
      exact absurd (h.symm.trans hx) (by decide)
  · -- normal
    by_cases hdeg : m.params.std ≤ EPS
    · have hc : ∀ x, cdf O m x = if x ≥ max m.params.mean 0 then 1 else 0 := by
        intro x
        simp [cdf, h, hdeg]
      refine ⟨?_, ?_, ?_, ?_, ?_, ?_, ?_⟩
      · intro x y hxy
        rw [hc, hc]
        split_ifs with h1 h2 <;> norm_num
        exact absurd (h1.trans hxy) h2
      · rw [hc]
        split_ifs <;> norm_num
      · intro hx
        exact absurd (h.symm.trans hx) (by decide)
      · intro _ _
        rw [hc, if_pos (le_refl _)]
      · intro _ hlt
        exact absurd hdeg (not_le.mpr hlt)
      · intro hx
        exact absurd (h.symm.trans hx) (by decide)
      · intro hx
        exact absurd (h.symm.trans hx) (by decide)
    · have hspec := hPhi m.params.mean m.params.std (not_le.mp hdeg)
      have hc : ∀ x, cdf O m x = if x ≤ 0
          then O.normalCdf 0 m.params.mean m.params.std
          else O.normalCdf x m.params.mean m.params.std := by
        intro x
        simp [cdf, h, hdeg]
      refine ⟨?_, ?_, ?_, ?_, ?_, ?_, ?_⟩
      · intro x y hxy
        rw [hc, hc]
        split_ifs with h1 h2 h3
        · exact le_refl _
        · exact hspec.1 (le_of_lt (not_le.mp h2))
        · exact absurd (hxy.trans h3) h1
        · exact hspec.1 hxy
      · rw [hc, if_pos (le_refl _)]
        exact (hspec.2.1 0).1
      · intro hx
        exact absurd (h.symm.trans hx) (by decide)
      · intro _ hle
        exact absurd hle hdeg
      · intro _ _
        refine Filter.Tendsto.congr' ?_ hspec.2.2
        filter_upwards [Filter.Ioi_mem_atTop (0 : ℚ)] with x hx
        rw [hc x, if_neg (not_le.mpr (Set.mem_Ioi.mp hx))]
      · intro hx
        exact absurd (h.symm.trans hx) (by decide)
      · intro hx
        exact absurd (h.symm.trans hx) (by decide)
  · -- uniform
    have hc : ∀ x, cdf O m x = if x ≤ m.params.low then 0
        else if x ≥ m.params.high then 1
        else (x - m.params.low) / max (m.params.high - m.params.low) EPS := by
      intro x
      simp [cdf, h]
    have hM : 0 < max (m.params.high - m.params.low) EPS :=
      lt_of_lt_of_le EPS_pos (le_max_right _ _)
    have hramp_nonneg : ∀ x, ¬x ≤ m.params.low →
        0 ≤ (x - m.params.low) / max (m.params.high - m.params.low) EPS := by
      intro x hx
      exact div_nonneg (sub_nonneg.mpr (le_of_lt (not_le.mp hx))) hM.le
    have hramp_le_one : ∀ x, x ≤ m.params.high →
        (x - m.params.low) / max (m.params.high - m.params.low) EPS ≤ 1 := by
      intro x hx
      rw [div_le_one hM]
      exact le_trans (sub_le_sub_right hx _) (le_max_left _ _)
    refine ⟨?_, ?_, ?_, ?_, ?_, ?_, ?_⟩
    · intro x y hxy
      rw [hc, hc]
      by_cases h1 : x ≤ m.params.low
      · by_cases h2 : y ≤ m.params.low
        · rw [if_pos h1, if_pos h2]
        · rw [if_pos h1, if_neg h2]
          by_cases h3 : y ≥ m.params.high
          · rw [if_pos h3]
            norm_num
          · rw [if_neg h3]
            exact hramp_nonneg y h2
      · have h2 : ¬y ≤ m.params.low := fun hy => h1 (hxy.trans hy)
        rw [if_neg h1, if_neg h2]
        by_cases h3 : x ≥ m.params.high
        · rw [if_pos h3, if_pos (le_trans h3 hxy)]
        · rw [if_neg h3]
          by_cases h4 : y ≥ m.params.high
          · rw [if_pos h4]
            exact hramp_le_one x (le_of_lt (not_le.mp h3))
          · rw [if_neg h4]
            exact (div_le_div_iff_of_pos_right hM).mpr (sub_le_sub_right hxy _)
    · rw [hc, if_pos h0low]
    · intro hx
      exact absurd (h.symm.trans hx) (by decide)
    · intro hx
      exact absurd (h.symm.trans hx) (by decide)
    · intro hx
      exact absurd (h.symm.trans hx) (by decide)
    · intro _ hlth
      rw [hc, if_neg (not_le.mpr hlth), if_pos (le_refl _)]
    · intro hx
      exact absurd (h.symm.trans hx) (by decide)
  · -- discrete
    have hc : ∀ x, cdf O m x = (List.zipWith (fun d p => if d ≤ x then p else 0)
        m.params.demands m.params.probabilities).sum := by
      intro x
      simp [cdf, h]
    refine ⟨?_, ?_, ?_, ?_, ?_, ?_, ?_⟩
    · intro x y hxy
      rw [hc, hc]
      exact discreteCdf_mono x y hxy _ _ hp0
    · rw [hc]
      exact discreteCdf_nonneg 0 _ _ hp0
    · intro hx
      exact absurd (h.symm.trans hx) (by decide)
    · intro hx
      exact absurd (h.symm.trans hx) (by decide)
    · intro hx
      exact absurd (h.symm.trans hx) (by decide)
    · intro hx
      exact absurd (h.symm.trans hx) (by decide)
    · intro _ x hall
      rw [hc, discreteCdf_total x _ _ hlen hall, hsum]

/-- C3 counterexample: the degenerate uniform model with `low = high = 100`
is valid, its maximum support point is 100, and the source's `cdf` returns 0
there (the `x ≤ low` branch fires before the `x ≥ high` branch), not 1. -/
theorem degenerate_uniform_cdf_counterexample :
    ValidModel degenerateUniform
    ∧ degenerateUniform.params.high = 100
    ∧ cdf pointOracle degenerateUniform 100 = 0
    ∧ cdf pointOracle degenerateUniform 100 ≠ 1 := by
  refine ⟨Or.inr (Or.inr (Or.inl ⟨rfl, by norm_num [degenerateUniform,
    mkUniform, Params.base], by norm_num [degenerateUniform, mkUniform,
    Params.base]⟩)), rfl, ?_, ?_⟩
  · simp [cdf, degenerateUniform, mkUniform, Params.base]
  · simp [cdf, degenerateUniform, mkUniform, Params.base]

/-- C3 witness: monotonicity of the discrete cdf at concrete points. -/
theorem cdf_shape_witness :
    cdf pointOracle discModel 90 ≤ cdf pointOracle discModel 120 :=
  (cdf_shape pointOracle pointOracle_cdfSpec discModel discModel_valid).1
    90 120 (by norm_num)

end App
